import Mathlib

/-!
Verification development for the `DeviceTree` client of the emberplus device
module (`src/device.js`): the request pipeline, the tree-merge engine
(`handleRoot` / `handleQualifiedNode` / `handleNode`), the directory-completion
predicate of `getDirectory`, the recursive `expand` walk, and the facade
operations `connect`, `setValue`, `subscribe` / `unsubscribe`.

The JavaScript source is shallowly embedded: stateful methods become explicit
state-passing functions, promises become `Except` / settled-result values, and
the recursive merge over inbound fragments is written with an explicit fuel
argument (the JS recursion is structural on the finite inbound fragment; any
fuel exceeding the fragment size makes the embedding agree with the source).
Strings are handled through their character lists so that every definition is
executable and kernel-reducible.

The tree node type (`ember.js`) is not part of the sources under verification;
its contract (lookup-by-number, lookup-by-path, child insertion, update with
callback collection) is modelled from the specification where noted.
-/

/-! ## String helpers mirroring the JavaScript string operations -/

/-- Index of the last occurrence of a character in a list, if any
(JS `String.prototype.lastIndexOf` restricted to a single character). -/
def lastIdxOfChar (ch : Char) : List Char → Option Nat
  | [] => none
  | c :: rest =>
    match lastIdxOfChar ch rest with
    | some j => some (j + 1)
    | none => if c = ch then some 0 else none

/-- JS `path.lastIndexOf('.')`: position of the last dot, `-1` when absent. -/
def lastIndexOfDot (s : String) : Int :=
  match lastIdxOfChar '.' s.data with
  | some i => (i : Int)
  | none => -1

/-- JS `String.prototype.startsWith`. -/
def jsStartsWith (s pre : String) : Bool :=
  List.isPrefixOf pre.data s.data

/-- JS `String.prototype.split('.')` on the character list: splits at every
dot, keeping empty groups, and returns `[[]]` for the empty string. -/
def splitCharsOnDot : List Char → List (List Char)
  | [] => [[]]
  | c :: rest =>
    match splitCharsOnDot rest with
    | [] => [[]]
    | g :: gs => if c = '.' then [] :: g :: gs else (c :: g) :: gs

/-- JS `path.split('.')` producing strings. -/
def splitDots (s : String) : List String :=
  (splitCharsOnDot s.data).map (fun l => String.mk l)

/-- JS `array.join('.')`. -/
def joinDots : List String → String
  | [] => ""
  | [x] => x
  | x :: y :: rest => x ++ "." ++ joinDots (y :: rest)

/-- Dotted path of a number-addressed child under a parent path
(`parent.getPath() + "." + number`, with no leading dot under the root). -/
def joinNum (base : String) (num : Nat) : String :=
  if base = "" then Nat.repr num else base ++ "." ++ Nat.repr num

/-! ## Completion predicate of `getDirectory` (device.js lines 134-136, 174-175) -/

/-- `isDirectSubPathOf` from device.js:
`path.lastIndexOf('.') === parent.length && path.startsWith(parent)`. -/
def isDirectSubPathOf (path parent : String) : Bool :=
  (lastIndexOfDot path == (parent.length : Int)) && jsStartsWith path parent

/-- The completion check of the `getDirectory` response handler applied to the
paths of the top-level elements of the inbound fragment:
`nodeElements.every(el => el.getPath() === requestedPath || isDirectSubPathOf(el.getPath(), requestedPath))`. -/
def gdComplete (requestedPath : String) (paths : List String) : Bool :=
  paths.all (fun p => p == requestedPath || isDirectSubPathOf p requestedPath)

/-! ## Error kinds (errors.js is external to the sources; kinds per the
specification's error-handling design) -/

/-- Modelled from the spec: the error kinds surfaced by the device facade —
`EmberTimeoutError`, `EmberAccessError` and generic `Error` values. -/
inductive EmberError where
  | emberTimeoutError (msg : String)
  | emberAccessError (msg : String)
  | genericError (msg : String)
deriving DecidableEq

/-! ## Request pipeline (device.js `makeRequest` / `addRequest` /
`clearTimeout` / `finishRequest`) -/

/-- State of the `DeviceTree` request pipeline.  Requests are identified by
the token they receive at enqueue time (`counter` is the ghost supply of
fresh tokens); `served` is the ghost log of dispatched requests in dispatch
order, each paired with the `requestID` it was assigned. -/
structure PipeState where
  pendingRequests : List Nat
  activeRequest : Option Nat
  timeout : Option Nat
  requestID : Nat
  nextHandle : Nat
  counter : Nat
  served : List (Nat × Nat)
deriving DecidableEq

/-- Initial pipeline state set up by the `DeviceTree` constructor. -/
def pipeInit : PipeState :=
  { pendingRequests := [], activeRequest := none, timeout := none,
    requestID := 0, nextHandle := 0, counter := 0, served := [] }

/-- `DeviceTree.prototype.makeRequest`: when no request is active and the
queue is non-empty, shift the head, make it active, start the timer with a
fresh handle, assign it `id = requestID++` and invoke it (recorded in the
`served` log). -/
def makeRequest (st : PipeState) : PipeState :=
  match st.activeRequest, st.pendingRequests with
  | none, r :: rest =>
    { st with pendingRequests := rest, activeRequest := some r,
              timeout := some st.nextHandle, nextHandle := st.nextHandle + 1,
              requestID := st.requestID + 1,
              served := st.served ++ [(r, st.requestID)] }
  | _, _ => st

/-- `DeviceTree.prototype.addRequest`: push the work onto the FIFO and
trigger dispatch. -/
def addRequest (tok : Nat) (st : PipeState) : PipeState :=
  makeRequest { st with pendingRequests := st.pendingRequests ++ [tok] }

/-- Enqueue a request under a fresh token drawn from the ghost supply. -/
def enqueueFresh (st : PipeState) : PipeState :=
  addRequest st.counter { st with counter := st.counter + 1 }

/-- `DeviceTree.prototype.clearTimeout`: null the timer field after
cancelling the handle, only when one is present. -/
def clearTimeout (st : PipeState) : PipeState :=
  match st.timeout with
  | some _ => { st with timeout := none }
  | none => st

/-- `DeviceTree.prototype.finishRequest`: clear the callback slot and the
timer, release the active slot, and dispatch the next queued request. -/
def finishRequest (st : PipeState) : PipeState :=
  makeRequest { (clearTimeout st) with activeRequest := none }

/-- `clearTimeout` instrumented with a count of the clears that actually hit
a non-null handle (and nulled it). -/
def clearTimeoutC (st : PipeState) : PipeState × Nat :=
  match st.timeout with
  | some _ => ({ st with timeout := none }, 1)
  | none => (st, 0)

/-- `finishRequest` with the count of actual timer clears it performs. -/
def finishRequestC (st : PipeState) : PipeState × Nat :=
  let p := clearTimeoutC st
  (makeRequest { p.1 with activeRequest := none }, p.2)

/-- The completion shape used by the `getDirectory` success and error paths
and by `invokeFunction`: an explicit `clearTimeout` followed by
`finishRequest` (which clears again, by then a no-op). -/
def clearThenFinishC (st : PipeState) : PipeState × Nat :=
  let a := clearTimeoutC st
  let b := finishRequestC a.1
  (b.1, a.2 + b.2)

/-- States reachable from the constructor state through the pipeline
operations (enqueueing work, finishing the active request — the path taken
on completion and on timeout alike — and explicit timer clears). -/
inductive Reach : PipeState → Prop where
  | init : Reach pipeInit
  | enqueue {st} : Reach st → Reach (enqueueFresh st)
  | finish {st} : Reach st → Reach (finishRequest st)
  | clearTo {st} : Reach st → Reach (clearTimeout st)

/-- Pipeline invariant: the dispatch log followed by the queue lists the
enqueue tokens in order, and the active request is always a logged one. -/
def pipeInv (st : PipeState) : Prop :=
  st.served.map Prod.fst ++ st.pendingRequests = List.range st.counter ∧
  ∀ r, st.activeRequest = some r → r ∈ st.served.map Prod.fst

theorem makeRequest_pipeInv {st : PipeState} (h : pipeInv st) :
    pipeInv (makeRequest st) := by
  obtain ⟨h1, h2⟩ := h
  unfold makeRequest
  rcases ha : st.activeRequest with _ | a
  · rcases hp : st.pendingRequests with _ | ⟨r, rest⟩
    · exact ⟨h1, h2⟩
    · refine ⟨?_, ?_⟩
      · rw [hp] at h1
        simpa [List.append_assoc] using h1
      · intro r' hr'
        obtain rfl : r = r' := by simpa using hr'
        simp
  · exact ⟨h1, h2⟩

theorem enqueueFresh_pipeInv {st : PipeState} (h : pipeInv st) :
    pipeInv (enqueueFresh st) := by
  obtain ⟨h1, h2⟩ := h
  refine makeRequest_pipeInv ⟨?_, ?_⟩
  · simpa [List.range_succ, List.append_assoc] using congrArg (· ++ [st.counter]) h1
  · exact h2

theorem clearTimeout_pipeInv {st : PipeState} (h : pipeInv st) :
    pipeInv (clearTimeout st) := by
  obtain ⟨h1, h2⟩ := h
  unfold clearTimeout
  rcases st.timeout with _ | t
  · exact ⟨h1, h2⟩
  · exact ⟨h1, h2⟩

theorem finishRequest_pipeInv {st : PipeState} (h : pipeInv st) :
    pipeInv (finishRequest st) := by
  have h' := clearTimeout_pipeInv h
  exact makeRequest_pipeInv ⟨h'.1, by simp⟩

theorem reach_pipeInv {st : PipeState} (h : Reach st) : pipeInv st := by
  induction h with
  | init => exact ⟨by simp [pipeInit], by simp [pipeInit]⟩
  | enqueue _ ih => exact enqueueFresh_pipeInv ih
  | finish _ ih => exact finishRequest_pipeInv ih
  | clearTo _ ih => exact clearTimeout_pipeInv ih

/-- C2: the pipeline keeps at most one active request: in every reachable
state the active request is not in the pending queue and the dispatch log
lists the enqueue tokens in strict FIFO order; `makeRequest` dispatches
nothing while a request is active, and otherwise removes the head of the
queue, makes it active, assigns it `id = requestID++`, starts the timer and
invokes the work. -/
theorem pipeline_fifo_single_active (st : PipeState) (h : Reach st) :
    (∀ r, st.activeRequest = some r → r ∉ st.pendingRequests) ∧
    st.served.map Prod.fst = List.range st.served.length ∧
    (∀ s : PipeState, s.activeRequest ≠ none → makeRequest s = s) ∧
    (∀ (s : PipeState) (r : Nat) (rest : List Nat),
      s.activeRequest = none → s.pendingRequests = r :: rest →
      makeRequest s =
        { s with pendingRequests := rest, activeRequest := some r,
                 timeout := some s.nextHandle, nextHandle := s.nextHandle + 1,
                 requestID := s.requestID + 1,
                 served := s.served ++ [(r, s.requestID)] }) := by
  obtain ⟨h1, h2⟩ := reach_pipeInv h
  have hnodup : (st.served.map Prod.fst ++ st.pendingRequests).Nodup := by
    rw [h1]; exact List.nodup_range _
  refine ⟨?_, ?_, ?_, ?_⟩
  · intro r ha hmem
    exact List.disjoint_of_nodup_append hnodup (h2 r ha) hmem
  · have ht := congrArg (List.take (st.served.map Prod.fst).length) h1
    rw [List.take_left, List.take_range] at ht
    have hle : (st.served.map Prod.fst).length ≤ st.counter := by
      have := congrArg List.length h1
      simp only [List.length_append, List.length_range] at this
      omega
    rw [ht, List.length_map, Nat.min_eq_left (by simpa using hle)]
  · intro s hs
    rcases ha : s.activeRequest with _ | a
    · exact absurd ha hs
    · unfold makeRequest; rw [ha]
  · intro s r rest ha hp
    unfold makeRequest; rw [ha, hp]

/-- Witness for C2 at a concrete reachable state: one request enqueued onto
the fresh pipeline. -/
theorem pipeline_fifo_single_active_witness :
    Reach (enqueueFresh pipeInit) ∧
    ((∀ r, (enqueueFresh pipeInit).activeRequest = some r →
       r ∉ (enqueueFresh pipeInit).pendingRequests) ∧
     (enqueueFresh pipeInit).served.map Prod.fst =
       List.range (enqueueFresh pipeInit).served.length ∧
     (∀ s : PipeState, s.activeRequest ≠ none → makeRequest s = s) ∧
     (∀ (s : PipeState) (r : Nat) (rest : List Nat),
       s.activeRequest = none → s.pendingRequests = r :: rest →
       makeRequest s =
         { s with pendingRequests := rest, activeRequest := some r,
                  timeout := some s.nextHandle, nextHandle := s.nextHandle + 1,
                  requestID := s.requestID + 1,
                  served := s.served ++ [(r, s.requestID)] })) :=
  ⟨Reach.enqueue Reach.init,
   pipeline_fifo_single_active (enqueueFresh pipeInit) (Reach.enqueue Reach.init)⟩

/-- C9: for a state holding the active request's live timer handle, each
completion path of the source clears the timer field from a non-null handle
exactly once — the explicit `clearTimeout` + `finishRequest` sequence used by
the `getDirectory` success and error handlers and by `invokeFunction`, and
the bare `finishRequest` used by the `setValue` handler and by the
work-callback invoked on timeout — and a further clear after the field was
nulled is a no-op, so the clear count is never zero and never two. -/
theorem timer_cleared_exactly_once (st : PipeState) (h : st.timeout ≠ none) :
    (clearThenFinishC st).2 = 1 ∧
    (finishRequestC st).2 = 1 ∧
    (clearTimeoutC st).1.timeout = none ∧
    (clearTimeoutC (clearTimeoutC st).1).2 = 0 := by
  rcases ht : st.timeout with _ | handle
  · exact absurd ht h
  · refine ⟨?_, ?_, ?_, ?_⟩ <;>
      simp [clearThenFinishC, finishRequestC, clearTimeoutC, ht]

/-- A concrete pipeline state with a dispatched request and a live timer. -/
def dispatchedEx : PipeState :=
  { pendingRequests := [], activeRequest := some 0, timeout := some 0,
    requestID := 1, nextHandle := 1, counter := 1, served := [(0, 0)] }

/-- Witness for C9 at a concrete dispatched state. -/
theorem timer_cleared_exactly_once_witness :
    dispatchedEx.timeout ≠ none ∧
    ((clearThenFinishC dispatchedEx).2 = 1 ∧
     (finishRequestC dispatchedEx).2 = 1 ∧
     (clearTimeoutC dispatchedEx).1.timeout = none ∧
     (clearTimeoutC (clearTimeoutC dispatchedEx).1).2 = 0) :=
  ⟨by decide, timer_cleared_exactly_once dispatchedEx (by decide)⟩

/-! ## The `getDirectory` response handler (device.js lines 152-183) -/

/-- Outcome of one invocation of the `getDirectory` response callback. -/
inductive GDAction where
  | ignored
  | resolvedAction
  | rejectedAction
deriving DecidableEq

/-- One invocation of the response callback installed by `getDirectory`,
acting on the pipeline state.  `qnodePath` is `qnode.getPath()`;
`qnodeFirst` is the path of `qnode.elements[0]` when `qnode` has elements
(the bootstrap case for the root) and `none` otherwise; `node` is `none` for
a null delivery, and otherwise carries `node.elements` — itself `none` when
the elements field is null or undefined, or the list of the top-level
elements' paths.  The source checks, in order: `if (node == null) return;`,
the error branch (clear timer, finish, reject), the `requestedPath`
computation (re-entering itself with an error and an undefined node when the
root has no elements, which the null-node guard then ignores), and finally
the completeness check `nodeElements != null && nodeElements.every(...)`
which resolves after clearing the timer and finishing. -/
def gdCallbackStep (st : PipeState) (qnodePath : String)
    (qnodeFirst : Option String) (err : Bool)
    (node : Option (Option (List String))) : PipeState × GDAction :=
  match node with
  | none => (st, GDAction.ignored)
  | some elems =>
    if err then (finishRequest (clearTimeout st), GDAction.rejectedAction)
    else
      match (if qnodePath = "" then qnodeFirst else some qnodePath) with
      | none => (st, GDAction.ignored)
      | some requestedPath =>
        match elems with
        | none => (st, GDAction.ignored)
        | some paths =>
          if gdComplete requestedPath paths then
            (finishRequest (clearTimeout st), GDAction.resolvedAction)
          else (st, GDAction.ignored)

/-- C1 counterexample: the claim judges a fragment whose element paths are
`{"1.2", "1.2.1", "1.2.2", "1.2.1.1"}` complete for requested path `"1.2"`,
but the source's `every`-check fails on the grandchild path `"1.2.1.1"`
(neither equal to `"1.2"` nor a direct sub-path of it), so the fragment is
judged incomplete. -/
theorem gdComplete_grandchild_counterexample :
    gdComplete "1.2" ["1.2", "1.2.1", "1.2.2", "1.2.1.1"] = false ∧
    isDirectSubPathOf "1.2.1.1" "1.2" = false := by decide

/-- C1 (amended): a fragment is judged complete exactly when every top-level
element's path equals the requested path or is a direct child of it; for
requested path `"1.2"`, the element-path sets `{"1.2", "1.2.1", "1.2.2"}`
and `{"1.2.1"}` are complete, while a fragment additionally carrying the
grandchild element path `"1.2.1.1"` is judged incomplete, as is a fragment
carrying the unrelated path `"1.3"` — on which the response handler neither
resolves nor finishes the request. -/
theorem gdComplete_characterization :
    (∀ (requestedPath : String) (paths : List String),
      gdComplete requestedPath paths = true ↔
        ∀ p ∈ paths, p = requestedPath ∨
          isDirectSubPathOf p requestedPath = true) ∧
    gdComplete "1.2" ["1.2", "1.2.1", "1.2.2"] = true ∧
    gdComplete "1.2" ["1.2.1"] = true ∧
    gdComplete "1.2" ["1.2", "1.2.1", "1.2.2", "1.2.1.1"] = false ∧
    gdComplete "1.2" ["1.2", "1.2.1", "1.3"] = false ∧
    (∀ st : PipeState,
      gdCallbackStep st "1.2" none false (some (some ["1.2", "1.2.1", "1.3"])) =
        (st, GDAction.ignored)) := by
  refine ⟨?_, by decide, by decide, by decide, by decide, ?_⟩
  · intro requestedPath paths
    simp [gdComplete, List.all_eq_true, Bool.or_eq_true, beq_iff_eq]
  · intro st
    have hfalse : gdComplete "1.2" ["1.2", "1.2.1", "1.3"] = false := by decide
    simp [gdCallbackStep, hfalse]

/-- Witness for C1's characterization: instantiating the universally
quantified completeness rule at the example request and fragment. -/
theorem gdComplete_characterization_witness :
    (gdComplete "1.2" ["1.2", "1.2.1", "1.2.2"] = true ↔
      ∀ p ∈ ["1.2", "1.2.1", "1.2.2"], p = "1.2" ∨
        isDirectSubPathOf p "1.2" = true) ∧
    gdCallbackStep pipeInit "1.2" none false (some (some ["1.2", "1.2.1", "1.3"])) =
      (pipeInit, GDAction.ignored) :=
  ⟨gdComplete_characterization.1 "1.2" ["1.2", "1.2.1", "1.2.2"],
   gdComplete_characterization.2.2.2.2.2 pipeInit⟩

/-- C8 counterexample: a delivery whose fragment carries a present but
empty elements list is not ignored — the `every` check is vacuously true, so
the handler clears the timer, finishes the request and resolves. -/
theorem gd_empty_elements_resolves_counterexample :
    gdCallbackStep dispatchedEx "1.2" none false (some (some [])) =
      (finishRequest (clearTimeout dispatchedEx), GDAction.resolvedAction) ∧
    (gdCallbackStep dispatchedEx "1.2" none false (some (some []))).2 ≠
      GDAction.ignored := by decide

/-- C8 (amended): a delivery with a null node, or a fragment whose elements
field is null or undefined, is ignored by the completion handler — the
promise is neither resolved nor rejected and the pipeline state (active
request slot and timer) is left unchanged; a present-but-empty elements
list, by contrast, vacuously satisfies the completeness check and resolves. -/
theorem gd_no_content_ignored (st : PipeState) (qnodePath : String)
    (qnodeFirst : Option String) (err : Bool) (hq : qnodePath ≠ "") :
    gdCallbackStep st qnodePath qnodeFirst err none = (st, GDAction.ignored) ∧
    gdCallbackStep st qnodePath qnodeFirst false (some none) =
      (st, GDAction.ignored) ∧
    gdCallbackStep st qnodePath qnodeFirst false (some (some [])) =
      (finishRequest (clearTimeout st), GDAction.resolvedAction) := by
  refine ⟨rfl, ?_, ?_⟩ <;> simp [gdCallbackStep, hq, gdComplete]

/-- Witness for C8's amended statement at a concrete state and path. -/
theorem gd_no_content_ignored_witness :
    ("1.2" : String) ≠ "" ∧
    (gdCallbackStep dispatchedEx "1.2" none false none =
       (dispatchedEx, GDAction.ignored) ∧
     gdCallbackStep dispatchedEx "1.2" none false (some none) =
       (dispatchedEx, GDAction.ignored) ∧
     gdCallbackStep dispatchedEx "1.2" none false (some (some [])) =
       (finishRequest (clearTimeout dispatchedEx), GDAction.resolvedAction)) :=
  ⟨by decide, gd_no_content_ignored dispatchedEx "1.2" none false (by decide)⟩

/-! ## Tree node model

Modelled from the spec: the node/parameter/command type hierarchy of
`ember.js` is external to the sources under verification.  Its data contract
— a sibling-unique `number`, an optional full dotted `path` (present exactly
on qualified wire representations), a type tag, a stream flag for
parameters, an ordered child sequence, registered value-change callbacks, a
scalar content field merged by `update`, and the attached `error` diagnostic
field written by `expand` — is embedded as a single inductive type.  The
per-node `getDirectory` outcome used by `expand` is abstracted as an oracle
field `gdErr` (`none`: the directory exchange for this node resolves;
`some e`: it rejects with `e`). -/
inductive ENode where
  | mk (number : Nat) (qpath : Option String) (kind : Nat) (stream : Bool)
       (value : Int) (callbacks : List Nat) (error : Option EmberError)
       (gdErr : Option EmberError) (children : List ENode)

/-- Type tag for plain container nodes. -/
def kindNode : Nat := 0

/-- Type tag for `Parameter` instances. -/
def kindParameter : Nat := 1

/-- Type tag for `QualifiedParameter` instances. -/
def kindQualifiedParameter : Nat := 2

/-- Type tag for `Command` instances. -/
def kindCommand : Nat := 3

def ENode.number : ENode → Nat
  | .mk n _ _ _ _ _ _ _ _ => n

def ENode.qpath : ENode → Option String
  | .mk _ q _ _ _ _ _ _ _ => q

def ENode.kind : ENode → Nat
  | .mk _ _ k _ _ _ _ _ _ => k

def ENode.stream : ENode → Bool
  | .mk _ _ _ s _ _ _ _ _ => s

def ENode.value : ENode → Int
  | .mk _ _ _ _ v _ _ _ _ => v

def ENode.callbacks : ENode → List Nat
  | .mk _ _ _ _ _ cbs _ _ _ => cbs

def ENode.error : ENode → Option EmberError
  | .mk _ _ _ _ _ _ e _ _ => e

def ENode.gdErr : ENode → Option EmberError
  | .mk _ _ _ _ _ _ _ g _ => g

def ENode.children : ENode → List ENode
  | .mk _ _ _ _ _ _ _ _ cs => cs

/-- Replace a node's child list. -/
def setChildren : ENode → List ENode → ENode
  | .mk n q k s v cbs e g _, cs => .mk n q k s v cbs e g cs

/-- Attach an error to a node (`child.error = e` in `expand`). -/
def setError : ENode → EmberError → ENode
  | .mk n q k s v cbs _ g cs, e => .mk n q k s v cbs (some e) g cs

/-- Modelled from the spec: `ember.js` `isParameter()` capability query —
true for parameter-like nodes (`Parameter` and `QualifiedParameter`). -/
def isParameterE (n : ENode) : Bool :=
  n.kind == kindParameter || n.kind == kindQualifiedParameter

/-- Modelled from the spec: `ember.js` `addCallback` registers a
value-change callback on the node (appends to the registered list). -/
def addCallbackE (n : ENode) (cb : Nat) : ENode :=
  match n with
  | .mk num q k s v cbs e g cs => .mk num q k s v (cbs ++ [cb]) e g cs

/-! ## subscribe / unsubscribe (device.js lines 399-413) -/

/-- `DeviceTree.prototype.subscribe`: stream-typed parameters are left
unhandled (reserved); every other node gets the callback registered via
`addCallback`. -/
def subscribe (n : ENode) (cb : Nat) : ENode :=
  if n.kind == kindParameter && n.stream then n else addCallbackE n cb

/-- `DeviceTree.prototype.unsubscribe`, exactly as written in the source:
its body is identical to `subscribe` — it calls `node.addCallback(callback)`
rather than removing the registration. -/
def unsubscribe (n : ENode) (cb : Nat) : ENode :=
  if n.kind == kindParameter && n.stream then n else addCallbackE n cb

/-- A concrete non-stream parameter with no registered callbacks. -/
def plainParam : ENode :=
  .mk 1 none kindParameter false 0 [] none none []

/-- C4: the code contradicts the claim — `unsubscribe` re-registers the
callback instead of removing it, so after `subscribe` followed by
`unsubscribe` with the same callback on a non-stream node the callback is
registered twice instead of not at all. -/
theorem unsubscribe_adds_callback_bug :
    (unsubscribe (subscribe plainParam 7) 7).callbacks = [7, 7] ∧
    7 ∈ (unsubscribe (subscribe plainParam 7) 7).callbacks := by decide

/-! ## setValue (device.js lines 415-450) -/

/-- Synchronous outcome of a facade call that may enqueue pipeline work:
an immediate rejection, if any, and the list of enqueued work items, each
recorded as the number of transport sends it performs once dispatched. -/
structure PipelineCall where
  immediateReject : Option EmberError
  enqueuedWork : List Nat
deriving DecidableEq

/-- Total transport sends eventually performed for a facade call. -/
def transportSends (c : PipelineCall) : Nat :=
  c.enqueuedWork.foldl (fun a b => a + b) 0

/-- `DeviceTree.prototype.setValue`: when the target is neither a
`Parameter` nor a `QualifiedParameter` instance, reject with
`EmberAccessError('not a property')` and enqueue nothing; otherwise enqueue
one work item that performs a single `sendBERNode`. -/
def setValue (kind : Nat) : PipelineCall :=
  if kind ≠ kindParameter ∧ kind ≠ kindQualifiedParameter then
    { immediateReject := some (EmberError.emberAccessError "not a property"),
      enqueuedWork := [] }
  else
    { immediateReject := none, enqueuedWork := [1] }

/-- C5: `setValue` on a node that is neither a `Parameter` nor a
`QualifiedParameter` rejects immediately with the access-error kind,
enqueues no pipeline work, and therefore causes zero transport sends. -/
theorem setValue_access_error_guard (kind : Nat)
    (h1 : kind ≠ kindParameter) (h2 : kind ≠ kindQualifiedParameter) :
    setValue kind =
      { immediateReject := some (EmberError.emberAccessError "not a property"),
        enqueuedWork := [] } ∧
    transportSends (setValue kind) = 0 := by
  rw [setValue, if_pos ⟨h1, h2⟩]
  exact ⟨rfl, rfl⟩

/-- Witness for C5 at the plain container node tag. -/
theorem setValue_access_error_guard_witness :
    kindNode ≠ kindParameter ∧ kindNode ≠ kindQualifiedParameter ∧
    (setValue kindNode =
      { immediateReject := some (EmberError.emberAccessError "not a property"),
        enqueuedWork := [] } ∧
     transportSends (setValue kindNode) = 0) :=
  ⟨by decide, by decide,
   setValue_access_error_guard kindNode (by decide) (by decide)⟩

/-! ## connect (device.js lines 22-42 and 81-95) -/

/-- Operations issued to the transport client by `connect`. -/
inductive ClientAction where
  | disconnectAction
  | connectAction (timeout : Nat)
deriving DecidableEq

/-- State of one `connect` call: whether the one-shot callback slot is still
armed, the settled result of the returned promise, and the client operations
issued so far, in order. -/
structure ConnState where
  callbackSet : Bool
  settled : Option (Except EmberError Unit)
  actions : List ClientAction

/-- `DeviceTree.prototype.connect`: arm the one-shot callback, disconnect
first when already connected, then start the client connection. -/
def connectCall (isConn : Bool) (timeout : Nat) : ConnState :=
  { callbackSet := true, settled := none,
    actions := (if isConn then [ClientAction.disconnectAction] else []) ++
      [ClientAction.connectAction timeout] }

/-- Deliver an event to the one-shot callback slot: the `connected` and
`error` client handlers invoke `self.callback` only when it is still set,
and the callback clears the slot before resolving (on no error) or
rejecting (with the delivered error). -/
def fireCallback (st : ConnState) (e : Option EmberError) : ConnState :=
  if st.callbackSet then
    { st with callbackSet := false,
              settled := some (match e with
                | none => Except.ok ()
                | some err => Except.error err) }
  else st

/-- The `connected` client event as seen by the `connect` promise. -/
def onConnectedEvent (st : ConnState) : ConnState :=
  fireCallback st none

/-- The `error` client event as seen by the `connect` promise. -/
def onErrorEvent (st : ConnState) (e : EmberError) : ConnState :=
  fireCallback st (some e)

/-- C10: a `connect` while already connected disconnects before starting the
new connection attempt; the promise resolves on the `connected` event and
rejects with the delivered error on the `error` event; in either case the
one-shot callback slot is cleared first, so a second event leaves the
settled result untouched. -/
theorem connect_lifecycle (isConn : Bool) (timeout : Nat) (e e2 : EmberError) :
    (connectCall true timeout).actions =
      [ClientAction.disconnectAction, ClientAction.connectAction timeout] ∧
    (connectCall false timeout).actions = [ClientAction.connectAction timeout] ∧
    (onConnectedEvent (connectCall isConn timeout)).settled =
      some (Except.ok ()) ∧
    (onConnectedEvent (connectCall isConn timeout)).callbackSet = false ∧
    (onErrorEvent (connectCall isConn timeout) e).settled =
      some (Except.error e) ∧
    (onErrorEvent (connectCall isConn timeout) e).callbackSet = false ∧
    onErrorEvent (onConnectedEvent (connectCall isConn timeout)) e2 =
      onConnectedEvent (connectCall isConn timeout) ∧
    onConnectedEvent (onErrorEvent (connectCall isConn timeout) e) =
      onErrorEvent (connectCall isConn timeout) e := by
  refine ⟨rfl, rfl, ?_, ?_, ?_, ?_, ?_, ?_⟩ <;>
    simp [onConnectedEvent, onErrorEvent, fireCallback, connectCall]

/-! ## expand (device.js lines 97-132) -/

/-- `DeviceTree.prototype.expand` with explicit fuel for the recursion over
the (finite) tree.  A null node rejects immediately.  A parameter-like node
delegates to `getDirectory` (its oracle outcome).  Otherwise the node's own
`getDirectory` outcome decides the result: on rejection the promise rejects;
on resolution the children are walked in order, parameter-like children are
skipped, each remaining child is expanded sequentially, and a child whose
expansion rejects has the failure attached as its `error` field while the
walk continues — so the parent always resolves. -/
def expandF : Nat → Option ENode → Except EmberError ENode
  | _, none => Except.error (EmberError.genericError "Invalid null node")
  | 0, some _ => Except.error (EmberError.genericError "fuel exhausted")
  | fuel + 1, some n =>
    if isParameterE n then
      match n.gdErr with
      | some e => Except.error e
      | none => Except.ok n
    else
      match n.gdErr with
      | some e => Except.error e
      | none =>
        Except.ok (setChildren n (n.children.map (fun c =>
          if isParameterE c then c
          else
            match expandF fuel (some c) with
            | Except.error e => setError c e
            | Except.ok c2 => c2)))

/-- One step of the sequential child walk of `expand`. -/
def expandChildStep (fuel : Nat) (c : ENode) : ENode :=
  if isParameterE c then c
  else
    match expandF fuel (some c) with
    | Except.error e => setError c e
    | Except.ok c2 => c2

/-- The child walk of `expand`, in sibling order. -/
def expandKids (fuel : Nat) (cs : List ENode) : List ENode :=
  cs.map (expandChildStep fuel)

/-- Whether an `expand` promise resolved. -/
def exceptOk : Except EmberError ENode → Bool
  | Except.ok _ => true
  | Except.error _ => false

/-- C6: for a non-parameter node, `expand` rejects exactly when the node's
own initial `getDirectory` rejects; when it resolves, the result is the node
with its children replaced by the sequential walk, which keeps every sibling
in order and in place, leaves parameter-like children untouched, stores a
failed child's error on that child itself, and replaces a successful child
by its expansion — so one child's failure aborts neither its siblings nor
the parent. -/
theorem expand_partial_failure (fuel : Nat) (n : ENode)
    (hk : isParameterE n = false) :
    (∀ e, expandF (fuel + 1) (some n) = Except.error e ↔ n.gdErr = some e) ∧
    (exceptOk (expandF (fuel + 1) (some n)) = true ↔ n.gdErr = none) ∧
    (n.gdErr = none →
      expandF (fuel + 1) (some n) =
        Except.ok (setChildren n (expandKids fuel n.children))) ∧
    (∀ (cs : List ENode) (c : ENode) (e : EmberError), c ∈ cs →
      isParameterE c = false → expandF fuel (some c) = Except.error e →
      setError c e ∈ expandKids fuel cs) ∧
    (∀ (cs : List ENode) (c : ENode) (c2 : ENode), c ∈ cs →
      isParameterE c = false → expandF fuel (some c) = Except.ok c2 →
      c2 ∈ expandKids fuel cs) ∧
    (∀ cs : List ENode, (expandKids fuel cs).length = cs.length) ∧
    (∀ (cs : List ENode) (i : Nat),
      (expandKids fuel cs).get? i = (cs.get? i).map (expandChildStep fuel)) := by
  refine ⟨?_, ?_, ?_, ?_, ?_, ?_, ?_⟩
  · intro e
    rcases hg : n.gdErr with _ | e' <;>
      simp [expandF, hk, hg, expandKids, expandChildStep]
  · rcases hg : n.gdErr with _ | e' <;>
      simp [expandF, exceptOk, hk, hg]
  · intro hg
    show expandF (fuel + 1) (some n) =
      Except.ok (setChildren n (n.children.map (expandChildStep fuel)))
    simp only [expandF, hk, hg, Bool.false_eq_true, if_false]
    rfl
  · intro cs c e hmem hcp hce
    have : expandChildStep fuel c = setError c e := by
      simp [expandChildStep, hcp, hce]
    exact this ▸ List.mem_map_of_mem (expandChildStep fuel) hmem
  · intro cs c c2 hmem hcp hce
    have : expandChildStep fuel c = c2 := by
      simp [expandChildStep, hcp, hce]
    exact this ▸ List.mem_map_of_mem (expandChildStep fuel) hmem
  · intro cs
    simp [expandKids]
  · intro cs i
    simp [expandKids, List.get?_map]

/-- A child whose own directory exchange fails. -/
def failingChild : ENode :=
  .mk 1 none kindNode false 0 [] none
    (some (EmberError.emberTimeoutError "Request 1 timed out")) []

/-- A sibling of `failingChild` whose directory exchange succeeds. -/
def okChild : ENode :=
  .mk 2 none kindNode false 0 [] none none []

/-- A non-parameter parent whose own directory exchange succeeds and whose
children are `failingChild` then `okChild`. -/
def expandParent : ENode :=
  .mk 0 none kindNode false 0 [] none none [failingChild, okChild]

/-- Witness for C6: the parent with a failing first child still resolves,
the failing child carries the attached error, and its sibling is kept. -/
theorem expand_partial_failure_witness :
    isParameterE expandParent = false ∧
    ((∀ e, expandF 2 (some expandParent) = Except.error e ↔
        expandParent.gdErr = some e) ∧
     (exceptOk (expandF 2 (some expandParent)) = true ↔
        expandParent.gdErr = none) ∧
     (expandParent.gdErr = none →
       expandF 2 (some expandParent) =
         Except.ok (setChildren expandParent
           (expandKids 1 expandParent.children)))) ∧
    expandKids 1 expandParent.children =
      [setError failingChild (EmberError.emberTimeoutError "Request 1 timed out"),
       okChild] :=
  ⟨by decide,
   ⟨(expand_partial_failure 1 expandParent (by decide)).1,
    (expand_partial_failure 1 expandParent (by decide)).2.1,
    (expand_partial_failure 1 expandParent (by decide)).2.2.1⟩,
   rfl⟩


/-! ## Tree addressing helpers for the merge engine

Nodes inside the persistent tree are addressed by their index path from the
root (the list of child positions), which makes the in-place mutations of
the JavaScript code explicit. -/

/-- Subtree at an index path, when the path is valid. -/
def subtreeAt : ENode → List Nat → Option ENode
  | n, [] => some n
  | n, i :: rest =>
    match n.children.get? i with
    | none => none
    | some c => subtreeAt c rest

/-- Replace the node at an index path by the image of a function
(an in-place mutation of the tree). -/
def modifyAt : ENode → List Nat → (ENode → ENode) → ENode
  | n, [], f => f n
  | n, i :: rest, f =>
    match n.children.get? i with
    | none => n
    | some c => setChildren n (n.children.set i (modifyAt c rest f))

/-- Modelled from the spec: `ember.js` `addChild` appends the incoming node
to the parent's ordered child sequence. -/
def addChildE (p : ENode) (c : ENode) : ENode :=
  setChildren p (p.children ++ [c])

/-- Modelled from the spec: `ember.js` `update` merges the incoming node's
scalar content into the existing element (its structure, number, path and
registered callbacks are kept). -/
def updateE (old incoming : ENode) : ENode :=
  match old with
  | .mk n q k s _ cbs e g cs => .mk n q k s incoming.value cbs e g cs

/-- Full dotted path of a child given its parent's full path: a qualified
child carries its own path; a number-addressed child extends the parent's
path with its number. -/
def childSelfPath (parentPath : String) (c : ENode) : String :=
  match c.qpath with
  | some p => p
  | none => joinNum parentPath c.number

/-- All (full path, index path) pairs of a subtree, in pre-order, given the
subtree root's own full path; fueled on depth. -/
def pathRefs : Nat → String → ENode → List (String × List Nat)
  | 0, selfPath, _ => [(selfPath, [])]
  | fuel + 1, selfPath, n =>
    (selfPath, []) ::
      (n.children.enum.map (fun p =>
        (pathRefs fuel (childSelfPath selfPath p.2) p.2).map
          (fun q => (q.1, p.1 :: q.2)))).join

/-- Modelled from the spec: `ember.js` `getElementByPath` — search the
receiver's subtree for the element whose full dotted path equals the
target, returning its index path relative to the receiver.  `selfPath` is
the receiver's own full path. -/
def findByAbsPath (fuel : Nat) (n : ENode) (selfPath target : String) :
    Option (List Nat) :=
  ((pathRefs fuel selfPath n).find? (fun q => q.1 == target)).map (fun q => q.2)

/-- Modelled from the spec: `ember.js` `getElementByNumber` — position of
the first direct child carrying the given number. -/
def findIdxByNumber (cs : List ENode) (num : Nat) : Option Nat :=
  cs.findIdx? (fun c => c.number == num)

/-! ## The merge engine (device.js `handleRoot` / `handleQualifiedNode` /
`handleNode`, lines 278-372) -/

/-- A pending invocation of the merge engine: `qn` is
`handleQualifiedNode(parent, node)` and `nd` is `handleNode(parent, node)`,
with the parent element given by its index path `pref` and full path
`ppath`; `kids` walks a qualified element's children (dispatching each on
`isQualified()`), while `ndKids` walks a number-addressed node's children
(the source routes all of them through `handleNode`). -/
inductive HCall where
  | qn (pref : List Nat) (ppath : String) (node : ENode)
  | nd (pref : List Nat) (ppath : String) (node : ENode)
  | kids (eref : List Nat) (epath : String) (cs : List ENode)
  | ndKids (nref : List Nat) (npath : String) (cs : List ENode)

/-- Ghost log of the lookups the merge engine performs: an element lookup by
full path against the subtree of the given receiver, the new-node parent
resolution by path against the Root, or a child lookup by number against
the given receiver. -/
inductive LookupEv where
  | byPath (receiver : List Nat) (target : String)
  | parentAtRoot (target : String)
  | byNumber (receiver : List Nat) (num : Nat)
deriving DecidableEq

/-- The merge engine of device.js over the persistent tree `root`, with
explicit fuel (the JS recursion is structural on the finite inbound
fragment).  Returns the updated tree, the collected callbacks, and the
ghost lookup log.  `qn` follows `handleQualifiedNode`: look the node up by
its full path against the subtree of the `parent` argument; when found,
merge via `update` and collect the element's callbacks; when unknown,
attach a single-component path directly under the Root, otherwise resolve
the parent (path minus last component) against the Root and silently drop
the fragment when that parent is unknown; then walk the incoming node's
children, qualified ones recursing as `qn` and number-addressed ones as
`nd`, each against the just-resolved element.  `nd` follows `handleNode`:
look the incoming node up among the parent's direct children by number,
update when found, append as a new child otherwise, then walk all incoming
children as `nd` against the resolved child. -/
def hstep : Nat → ENode → HCall → ENode × List Nat × List LookupEv
  | 0, root, _ => (root, [], [])
  | fuel + 1, root, HCall.qn pref ppath node =>
    match node.qpath with
    | none => (root, [], [])
    | some np =>
      let core : ENode × List Nat × List LookupEv :=
        match subtreeAt root pref with
        | none => (root, [], [])
        | some psub =>
          match findByAbsPath (fuel + 1) psub ppath np with
          | some rel =>
            let eref := pref ++ rel
            let el := (subtreeAt root eref).getD node
            let root1 := modifyAt root eref (fun e => updateE e node)
            let k := hstep fuel root1 (HCall.kids eref np node.children)
            (k.1, el.callbacks ++ k.2.1, k.2.2)
          | none =>
            let comps := splitDots np
            if comps.length = 1 then
              let idx := root.children.length
              let root1 := addChildE root node
              let k := hstep fuel root1 (HCall.kids [idx] np node.children)
              (k.1, k.2.1, k.2.2)
            else
              let pp := joinDots comps.dropLast
              match findByAbsPath (fuel + 1) root "" pp with
              | none => (root, [], [LookupEv.parentAtRoot pp])
              | some prel =>
                let pidx := ((subtreeAt root prel).getD root).children.length
                let root1 := modifyAt root prel (fun p => addChildE p node)
                let k := hstep fuel root1
                  (HCall.kids (prel ++ [pidx]) np node.children)
                (k.1, k.2.1, LookupEv.parentAtRoot pp :: k.2.2)
      (core.1, core.2.1, LookupEv.byPath pref np :: core.2.2)
  | fuel + 1, root, HCall.nd pref ppath node =>
    let core : ENode × List Nat × List LookupEv :=
      match subtreeAt root pref with
      | none => (root, [], [])
      | some psub =>
        match findIdxByNumber psub.children node.number with
        | none =>
          let idx := psub.children.length
          let root1 := modifyAt root pref (fun p => addChildE p node)
          let k := hstep fuel root1
            (HCall.ndKids (pref ++ [idx]) (childSelfPath ppath node) node.children)
          (k.1, k.2.1, k.2.2)
        | some i =>
          let c := (psub.children.get? i).getD node
          let root1 := modifyAt root (pref ++ [i]) (fun e => updateE e node)
          let k := hstep fuel root1
            (HCall.ndKids (pref ++ [i]) (childSelfPath ppath c) node.children)
          (k.1, c.callbacks ++ k.2.1, k.2.2)
    (core.1, core.2.1, LookupEv.byNumber pref node.number :: core.2.2)
  | _ + 1, root, HCall.kids _ _ [] => (root, [], [])
  | fuel + 1, root, HCall.kids eref epath (c :: rest) =>
    let h1 := hstep fuel root
      ((if c.qpath.isSome then HCall.qn else HCall.nd) eref epath c)
    let h2 := hstep fuel h1.1 (HCall.kids eref epath rest)
    (h2.1, h1.2.1 ++ h2.2.1, h1.2.2 ++ h2.2.2)
  | _ + 1, root, HCall.ndKids _ _ [] => (root, [], [])
  | fuel + 1, root, HCall.ndKids nref npath (c :: rest) =>
    let h1 := hstep fuel root (HCall.nd nref npath c)
    let h2 := hstep fuel h1.1 (HCall.ndKids nref npath rest)
    (h2.1, h1.2.1 ++ h2.2.1, h1.2.2 ++ h2.2.2)

/-- Looking up the receiver's own path always finds the receiver itself. -/
theorem findByAbsPath_self (fuel : Nat) (n : ENode) (selfPath : String) :
    findByAbsPath (fuel + 1) n selfPath selfPath = some [] := by
  simp [findByAbsPath, pathRefs, List.find?_cons]

/-- C3: merging a qualified incoming node (a top-level fragment element,
handled against the Root) whose path is unknown and whose parent path —
the path minus its last component — is also unknown leaves the persistent
tree unchanged and returns no callbacks; the branch raises nothing and
attaches nothing. -/
theorem forward_reference_tolerance (fuel : Nat) (root node : ENode)
    (np : String) (hq : node.qpath = some np)
    (h1 : findByAbsPath (fuel + 1) root "" np = none)
    (h2 : findByAbsPath (fuel + 1) root ""
      (joinDots (splitDots np).dropLast) = none) :
    (hstep (fuel + 1) root (HCall.qn [] "" node)).1 = root ∧
    (hstep (fuel + 1) root (HCall.qn [] "" node)).2.1 = [] := by
  by_cases hlen : (splitDots np).length = 1
  · obtain ⟨x, hx⟩ := List.length_eq_one.mp hlen
    rw [hx] at h2
    simp only [List.dropLast_single, joinDots] at h2
    rw [findByAbsPath_self] at h2
    exact absurd h2 (by simp)
  · simp [hstep, hq, h1, h2, hlen, subtreeAt]

/-- A small tree (root with one known child at path "1") for exercising the
forward-reference branch. -/
def fwdTree : ENode :=
  .mk 0 (some "") kindNode false 0 [] none none
    [.mk 1 (some "1") kindNode false 0 [] none none []]

/-- A qualified fragment at path "3.1" whose parent "3" is unknown. -/
def fwdNode : ENode :=
  .mk 3 (some "3.1") kindNode false 0 [] none none []

/-- Witness for C3: merging the orphan fragment at path "3.1" into a tree
that knows neither "3.1" nor "3" changes nothing and returns no callbacks. -/
theorem forward_reference_tolerance_witness :
    fwdNode.qpath = some "3.1" ∧
    findByAbsPath 1 fwdTree "" "3.1" = none ∧
    findByAbsPath 1 fwdTree "" (joinDots (splitDots "3.1").dropLast) = none ∧
    ((hstep 1 fwdTree (HCall.qn [] "" fwdNode)).1 = fwdTree ∧
     (hstep 1 fwdTree (HCall.qn [] "" fwdNode)).2.1 = []) :=
  ⟨rfl, by decide, by decide,
   forward_reference_tolerance 0 fwdTree fwdNode "3.1" rfl (by decide) (by decide)⟩

/-- Follows the spec's words, for refinement comparison with `hstep`: the
merge engine as the specification describes it, with every qualified node —
top-level or nested — looked up by its full path under the Root (never
relative to the just-resolved enclosing element).  All other steps are
identical to `hstep`. -/
def hstepRootRel : Nat → ENode → HCall → ENode × List Nat × List LookupEv
  | 0, root, _ => (root, [], [])
  | fuel + 1, root, HCall.qn _ _ node =>
    match node.qpath with
    | none => (root, [], [])
    | some np =>
      let core : ENode × List Nat × List LookupEv :=
        match findByAbsPath (fuel + 1) root "" np with
        | some rel =>
          let el := (subtreeAt root rel).getD node
          let root1 := modifyAt root rel (fun e => updateE e node)
          let k := hstepRootRel fuel root1 (HCall.kids rel np node.children)
          (k.1, el.callbacks ++ k.2.1, k.2.2)
        | none =>
          let comps := splitDots np
          if comps.length = 1 then
            let idx := root.children.length
            let root1 := addChildE root node
            let k := hstepRootRel fuel root1 (HCall.kids [idx] np node.children)
            (k.1, k.2.1, k.2.2)
          else
            let pp := joinDots comps.dropLast
            match findByAbsPath (fuel + 1) root "" pp with
            | none => (root, [], [LookupEv.parentAtRoot pp])
            | some prel =>
              let pidx := ((subtreeAt root prel).getD root).children.length
              let root1 := modifyAt root prel (fun p => addChildE p node)
              let k := hstepRootRel fuel root1
                (HCall.kids (prel ++ [pidx]) np node.children)
              (k.1, k.2.1, LookupEv.parentAtRoot pp :: k.2.2)
      (core.1, core.2.1, LookupEv.byPath [] np :: core.2.2)
  | fuel + 1, root, HCall.nd pref ppath node =>
    let core : ENode × List Nat × List LookupEv :=
      match subtreeAt root pref with
      | none => (root, [], [])
      | some psub =>
        match findIdxByNumber psub.children node.number with
        | none =>
          let idx := psub.children.length
          let root1 := modifyAt root pref (fun p => addChildE p node)
          let k := hstepRootRel fuel root1
            (HCall.ndKids (pref ++ [idx]) (childSelfPath ppath node) node.children)
          (k.1, k.2.1, k.2.2)
        | some i =>
          let c := (psub.children.get? i).getD node
          let root1 := modifyAt root (pref ++ [i]) (fun e => updateE e node)
          let k := hstepRootRel fuel root1
            (HCall.ndKids (pref ++ [i]) (childSelfPath ppath c) node.children)
          (k.1, c.callbacks ++ k.2.1, k.2.2)
    (core.1, core.2.1, LookupEv.byNumber pref node.number :: core.2.2)
  | _ + 1, root, HCall.kids _ _ [] => (root, [], [])
  | fuel + 1, root, HCall.kids eref epath (c :: rest) =>
    let h1 := hstepRootRel fuel root
      ((if c.qpath.isSome then HCall.qn else HCall.nd) eref epath c)
    let h2 := hstepRootRel fuel h1.1 (HCall.kids eref epath rest)
    (h2.1, h1.2.1 ++ h2.2.1, h1.2.2 ++ h2.2.2)
  | _ + 1, root, HCall.ndKids _ _ [] => (root, [], [])
  | fuel + 1, root, HCall.ndKids nref npath (c :: rest) =>
    let h1 := hstepRootRel fuel root (HCall.nd nref npath c)
    let h2 := hstepRootRel fuel h1.1 (HCall.ndKids nref npath rest)
    (h2.1, h1.2.1 ++ h2.2.1, h1.2.2 ++ h2.2.2)

/-- The persistent tree for the C7 counterexample: the Root holds element
"1" (which has a number-addressed child, so its subtree is `{"1", "1.1"}`)
and element "2". -/
def mergeTree : ENode :=
  .mk 0 (some "") kindNode false 0 [] none none
    [.mk 1 (some "1") kindNode false 0 [] none none
       [.mk 1 none kindNode false 0 [] none none []],
     .mk 2 (some "2") kindNode false 10 [] none none []]

/-- The inbound fragment for the C7 counterexample: a qualified element at
path "1" carrying a nested qualified child at path "2" — a path that exists
under the Root but not inside element "1"'s subtree. -/
def mergeFrag : ENode :=
  .mk 1 (some "1") kindNode false 5 [] none none
    [.mk 2 (some "2") kindNode false 99 [] none none []]

/-- C7 counterexample: the source looks the nested qualified child at path
"2" up relative to the just-resolved element "1", misses it, and attaches a
duplicate third child under the Root, whereas the claimed always-relative-
to-Root lookup finds the existing element "2" and merely updates it — the
two behaviours produce different trees on this fragment, refuting the
claim that every qualified child is looked up relative to the Root. -/
theorem qualified_child_lookup_counterexample :
    ((hstep 3 mergeTree (HCall.qn [] "" mergeFrag)).1).children.length = 3 ∧
    ((hstepRootRel 3 mergeTree (HCall.qn [] "" mergeFrag)).1).children.length = 2 ∧
    (hstep 3 mergeTree (HCall.qn [] "" mergeFrag)).1 ≠
      (hstepRootRel 3 mergeTree (HCall.qn [] "" mergeFrag)).1 := by
  have e1 : ((hstep 3 mergeTree (HCall.qn [] "" mergeFrag)).1).children.length = 3 := by
    decide
  have e2 : ((hstepRootRel 3 mergeTree (HCall.qn [] "" mergeFrag)).1).children.length = 2 := by
    decide
  refine ⟨e1, e2, fun h => ?_⟩
  have hc : (3 : Nat) = 2 := by rw [← e1, ← e2, h]
  exact absurd hc (by decide)

/-- C7 (amended): during fragment merge the element lookup for a qualified
node is performed against the subtree of the `parent` argument — the Root
for a top-level element, the just-resolved enclosing element for a nested
qualified child; a number-addressed child is resolved by number against the
just-resolved element, and every child of a number-addressed node (even a
qualified one) goes through the by-number route; only the parent-resolution
step for a new unknown qualified node is performed against the Root. -/
theorem qualified_child_lookup_receivers (f : Nat) (root : ENode)
    (eref : List Nat) (epath : String) (cq cn : ENode) (rest : List ENode)
    (p : String) (hq : cq.qpath = some p) (hn : cn.qpath = none)
    (hmiss : findByAbsPath (f + 1) root "" p = none)
    (hlen : (splitDots p).length ≠ 1) :
    ((hstep (f + 2) root (HCall.kids eref epath (cq :: rest))).2.2).head? =
      some (LookupEv.byPath eref p) ∧
    ((hstep (f + 1) root (HCall.qn [] "" cq)).2.2).head? =
      some (LookupEv.byPath [] p) ∧
    ((hstep (f + 2) root (HCall.kids eref epath (cn :: rest))).2.2).head? =
      some (LookupEv.byNumber eref cn.number) ∧
    ((hstep (f + 2) root (HCall.ndKids eref epath (cq :: rest))).2.2).head? =
      some (LookupEv.byNumber eref cq.number) ∧
    ((hstep (f + 1) root (HCall.qn [] "" cq)).2.2).get? 1 =
      some (LookupEv.parentAtRoot (joinDots (splitDots p).dropLast)) := by
  refine ⟨?_, ?_, ?_, ?_, ?_⟩
  · simp [hstep, hq]
  · simp [hstep, hq]
  · simp [hstep, hn]
  · simp [hstep]
  · simp only [hstep, hq, hmiss, hlen, subtreeAt]
    rcases hp : findByAbsPath (f + 1) root "" (joinDots (splitDots p).dropLast)
      with _ | prel <;> simp [hp, hlen]

/-- A qualified child fragment at the unknown two-component path "9.1". -/
def orphanFrag : ENode :=
  .mk 9 (some "9.1") kindNode false 0 [] none none []

/-- A number-addressed child fragment. -/
def numberFrag : ENode :=
  .mk 4 none kindNode false 7 [] none none []

/-- Witness for C7's amended statement at concrete fragments against
`mergeTree`. -/
theorem qualified_child_lookup_receivers_witness :
    orphanFrag.qpath = some "9.1" ∧ numberFrag.qpath = none ∧
    findByAbsPath 1 mergeTree "" "9.1" = none ∧
    (splitDots "9.1").length ≠ 1 ∧
    (((hstep 2 mergeTree (HCall.kids [0] "1" [orphanFrag])).2.2).head? =
       some (LookupEv.byPath [0] "9.1") ∧
     ((hstep 1 mergeTree (HCall.qn [] "" orphanFrag)).2.2).head? =
       some (LookupEv.byPath [] "9.1") ∧
     ((hstep 2 mergeTree (HCall.kids [0] "1" [numberFrag])).2.2).head? =
       some (LookupEv.byNumber [0] numberFrag.number) ∧
     ((hstep 2 mergeTree (HCall.ndKids [0] "1" [orphanFrag])).2.2).head? =
       some (LookupEv.byNumber [0] orphanFrag.number) ∧
     ((hstep 1 mergeTree (HCall.qn [] "" orphanFrag)).2.2).get? 1 =
       some (LookupEv.parentAtRoot (joinDots (splitDots "9.1").dropLast))) :=
  ⟨rfl, rfl, by decide, by decide,
   qualified_child_lookup_receivers 0 mergeTree [0] "1" orphanFrag numberFrag
     [] "9.1" rfl rfl (by decide) (by decide)⟩
